import Mathlib

/-!
Verification of the algebra practice module
(`src/client/src/components/algebra/AlgebraModule.tsx`).

The module keeps five pieces of React state (current problem, raw text
input, feedback-visibility flag, correctness flag, hint-expanded flag),
checks a typed answer with `parseInt` against the generated problem's
recorded answer, and advances to a freshly generated level-1 problem.
We embed the state as an explicit record, the two event handlers
(`checkAnswer`, `nextProblem`) as pure state transformers, and the
validation logic additionally as the spec-level pure evaluator
`evaluate(rawInput, problem)`.

`generateAlgebraProblem` is imported in the source from
`@/lib/algebraProblems`, a file not present in the excerpt; it is
modelled from the spec (sections 3, 4.1, 8 and 9).
-/

/-- The two operators the spec allows for level-1 problems. -/
inductive AlgebraOp where
  | addition
  | subtraction
deriving DecidableEq, Repr

/-- The Problem value of the spec data model: ordered sequence of two
operands, an operator, the recorded correct answer, and two hint strings. -/
structure Problem where
  operands : List Int
  operator : AlgebraOp
  answer : Int
  hint : String
  detailedHint : String
deriving DecidableEq, Repr

/-- Meaning of a problem's equation: with operands `[a, b]`, the value
`x` solves the equation exactly when `a <op> b = x`. -/
def applyOp : AlgebraOp → Int → Int → Int
  | .addition, a, b => a + b
  | .subtraction, a, b => a - b

/-- Whether `x` solves the equation of problem `p`. -/
def equationHolds (p : Problem) (x : Int) : Prop :=
  match p.operands with
  | [a, b] => applyOp p.operator a b = x
  | _ => False

instance (p : Problem) (x : Int) : Decidable (equationHolds p x) := by
  unfold equationHolds
  cases p.operands with
  | nil => exact inferInstanceAs (Decidable False)
  | cons a t =>
    cases t with
    | nil => exact inferInstanceAs (Decidable False)
    | cons b t2 =>
      cases t2 with
      | nil => exact inferInstanceAs (Decidable (_ = _))
      | cons c t3 => exact inferInstanceAs (Decidable False)

/-! ### JavaScript `parseInt(s, 10)`

`checkAnswer` parses the raw input with `parseInt(userAnswer, 10)`.
With radix 10 this trims leading whitespace, accepts an optional sign,
then reads the longest prefix of decimal digits; with no digit it
yields `NaN`, modelled as `none`. -/

/-- Numeric value of a decimal digit character. -/
def digitVal (c : Char) : Nat := c.toNat - 48

/-- Optional leading sign: returns (isNegative, rest). -/
def parseSign : List Char → Bool × List Char
  | [] => (false, [])
  | c :: rest =>
    if c = '-' then (true, rest)
    else if c = '+' then (false, rest)
    else (false, c :: rest)

/-- Accumulate the value of a digit string, most significant first. -/
def parseDigitsFrom (acc : Nat) (cs : List Char) : Nat :=
  cs.foldl (fun a c => a * 10 + digitVal c) acc

/-- Parse a character list as `parseInt(·, 10)` does: skip whitespace,
take an optional sign, then the longest digit prefix; `none` is `NaN`. -/
def jsParseIntList (cs : List Char) : Option Int :=
  let sr := parseSign (cs.dropWhile Char.isWhitespace)
  let digits := sr.2.takeWhile Char.isDigit
  if digits.isEmpty then none
  else
    if sr.1 then some (-(Int.ofNat (parseDigitsFrom 0 digits)))
    else some (Int.ofNat (parseDigitsFrom 0 digits))

/-- Model of JavaScript `parseInt(s, 10)`; `none` is `NaN`. -/
def jsParseInt10 (s : String) : Option Int :=
  jsParseIntList s.data

/-! ### Decimal rendering

`str(n)`: the canonical decimal string of an integer (what
`String(n)`/template rendering produces for the integral answers of
this module). -/

/-- The decimal digit character for `d < 10`. -/
def digitChar (d : Nat) : Char := Char.ofNat (48 + d)

/-- Decimal digit characters of a natural number, most significant first. -/
def natDecimal (n : Nat) : List Char :=
  if n < 10 then [digitChar n]
  else natDecimal (n / 10) ++ [digitChar (n % 10)]
decreasing_by exact Nat.div_lt_self (by omega) (by omega)

/-- Canonical decimal string of an integer. -/
def intToDecimalString (n : Int) : String :=
  if n < 0 then ⟨'-' :: natDecimal n.natAbs⟩ else ⟨natDecimal n.natAbs⟩

/-! ### The answer evaluator and the session state machine -/

/-- Result of the spec-level pure evaluator
`evaluate(rawInput, problem)`. -/
inductive EvalResult where
  | missingAnswer
  | notANumber
  | ok (correct : Bool) (parsedValue : Int)
deriving DecidableEq, Repr

/-- The validation logic of `checkAnswer` (source lines 60-87) as the
pure evaluator of the spec: empty input fails with MissingAnswer,
unparseable input fails with NotANumber, otherwise the parsed integer
is compared with the problem's recorded answer. -/
def evaluate (rawInput : String) (problem : Problem) : EvalResult :=
  if rawInput = "" then .missingAnswer
  else
    match jsParseInt10 rawInput with
    | none => .notANumber
    | some parsedAnswer => .ok (parsedAnswer == problem.answer) parsedAnswer

/-- The React component state of `AlgebraModule` (source lines 36-44). -/
structure SessionState where
  currentProblem : Problem
  userAnswer : String
  showFeedback : Bool
  isCorrect : Bool
  showHints : Bool
deriving DecidableEq, Repr

/-- Which branch of `checkAnswer` ran (which toast was shown). -/
inductive CheckOutcome where
  | missingAnswer
  | notANumber
  | answered (correct : Bool)
deriving DecidableEq, Repr

/-- The `checkAnswer` handler (source lines 60-103): on empty input it
toasts and returns; on a NaN parse it toasts and returns; otherwise it
sets `isCorrect` to the comparison result and `showFeedback` to true. -/
def checkAnswer (s : SessionState) : SessionState × CheckOutcome :=
  if s.userAnswer = "" then (s, .missingAnswer)
  else
    match jsParseInt10 s.userAnswer with
    | none => (s, .notANumber)
    | some parsedAnswer =>
      let correct := parsedAnswer == s.currentProblem.answer
      ({ s with isCorrect := correct, showFeedback := true }, .answered correct)

/-- The disabled condition of the answer input and the Check button
(source lines 138 and 143): `showFeedback && isCorrect`. -/
def inputDisabled (s : SessionState) : Bool := s.showFeedback && s.isCorrect

/-! ### The problem generator

Modelled from the spec: `generateAlgebraProblem` lives in
`@/lib/algebraProblems`, which is not part of the excerpted source.
Per spec section 9 the generator takes an explicit random source; per
sections 3 and 8, level 1 draws two operands in [1, 10] and an operator
in addition/subtraction, and the recorded answer solves the equation
and is never negative (subtraction is arranged large-minus-small). -/

/-- Modelled from the spec: an explicit random source (section 9),
a deterministic seed-carrying generator state. -/
structure RandSource where
  seed : Nat
deriving DecidableEq, Repr

/-- Modelled from the spec: one linear-congruential step of the
explicit random source. -/
def randStep (r : RandSource) : Nat × RandSource :=
  let next := (r.seed * 1103515245 + 12345) % 2147483648
  (next, ⟨next⟩)

/-- Modelled from the spec: draw a value in `[lo, hi]` from the
explicit random source. -/
def randBetween (r : RandSource) (lo hi : Nat) : Nat × RandSource :=
  let vr := randStep r
  (lo + vr.1 % (hi + 1 - lo), vr.2)

/-- Modelled from the spec: `generateAlgebraProblem` from
`@/lib/algebraProblems` (absent from the excerpt). Level 1 behaviour
per spec sections 3, 4.1 and 8: two operands in [1, 10], operator
addition or subtraction, answer solving the equation and non-negative
(subtraction takes the larger operand first); out-of-range levels
default to the lowest difficulty (section 4.1). -/
def generateAlgebraProblem (level : Nat) (r : RandSource) : Problem × RandSource :=
  let _ := level
  let ar := randBetween r 1 10
  let br := randBetween ar.2 1 10
  let opr := randBetween br.2 0 1
  if opr.1 = 0 then
    ({ operands := [Int.ofNat ar.1, Int.ofNat br.1]
       operator := .addition
       answer := Int.ofNat ar.1 + Int.ofNat br.1
       hint := "Count up from the first number."
       detailedHint := "Draw dots for each number and count them all." }, opr.2)
  else
    ({ operands := [Int.ofNat (max ar.1 br.1), Int.ofNat (min ar.1 br.1)]
       operator := .subtraction
       answer := Int.ofNat (max ar.1 br.1) - Int.ofNat (min ar.1 br.1)
       hint := "Count down from the bigger number."
       detailedHint := "Start at the bigger number and count back." }, opr.2)

/-- The `nextProblem` handler (source lines 109-114): replaces the
current problem with a freshly generated level-1 problem, clears the
input, hides feedback and collapses the hints; `isCorrect` is not
touched. The random source threads explicitly. -/
def nextProblem (r : RandSource) (s : SessionState) : SessionState × RandSource :=
  let pr := generateAlgebraProblem 1 r
  ({ s with currentProblem := pr.1
            userAnswer := ""
            showFeedback := false
            showHints := false }, pr.2)

/-- A concrete problem used to instantiate universally quantified
theorems on explicit inputs. -/
def sampleProblem : Problem :=
  ⟨[3, 4], .addition, 7, "look at the dots", "count all the dots"⟩

/-- Session state with the sample problem and an empty input box. -/
def emptyInputState : SessionState := ⟨sampleProblem, "", false, false, false⟩

/-- Session state with the sample problem and the correct answer typed. -/
def correctInputState : SessionState := ⟨sampleProblem, "7", false, false, false⟩

/-- Session state right after a correct answer was checked. -/
def answeredState : SessionState := ⟨sampleProblem, "7", true, true, false⟩

/-! ## Helper lemmas: the decimal round trip -/

theorem digitChar_isDigit {d : Nat} (h : d < 10) : (digitChar d).isDigit = true := by
  interval_cases d <;> decide

theorem digitChar_val {d : Nat} (h : d < 10) : digitVal (digitChar d) = d := by
  interval_cases d <;> decide

theorem digit_not_ws {c : Char} (h : c.isDigit = true) : c.isWhitespace = false := by
  cases hw : c.isWhitespace with
  | false => rfl
  | true =>
    exfalso
    rw [Char.isWhitespace] at hw
    simp only [Bool.or_eq_true, decide_eq_true_eq] at hw
    rcases hw with ((h1 | h1) | h1) | h1 <;> (subst h1; exact absurd h (by decide))

theorem digit_ne_dash {c : Char} (h : c.isDigit = true) : c ≠ '-' := by
  intro e; subst e; exact absurd h (by decide)

theorem digit_ne_plus {c : Char} (h : c.isDigit = true) : c ≠ '+' := by
  intro e; subst e; exact absurd h (by decide)

theorem natDecimal_ne_nil (n : Nat) : natDecimal n ≠ [] := by
  rw [natDecimal]
  by_cases h : n < 10
  · rw [if_pos h]; simp
  · rw [if_neg h]; simp

theorem natDecimal_digits (n : Nat) : ∀ c ∈ natDecimal n, c.isDigit = true := by
  induction n using Nat.strong_induction_on with
  | _ n ih =>
    rw [natDecimal]
    by_cases h : n < 10
    · rw [if_pos h]
      intro c hc
      rw [List.mem_singleton] at hc; subst hc
      exact digitChar_isDigit h
    · rw [if_neg h]
      intro c hc
      rcases List.mem_append.mp hc with h1 | h1
      · exact ih (n / 10) (Nat.div_lt_self (by omega) (by omega)) c h1
      · rw [List.mem_singleton] at h1; subst h1
        exact digitChar_isDigit (Nat.mod_lt _ (by omega))

theorem takeWhile_of_all {l : List Char} (h : ∀ c ∈ l, c.isDigit = true) :
    l.takeWhile Char.isDigit = l := by
  induction l with
  | nil => rfl
  | cons a t ih =>
    rw [List.takeWhile_cons_of_pos (h a (List.mem_cons_self a t))]
    rw [ih (fun c hc => h c (List.mem_cons_of_mem a hc))]

theorem parseDigitsFrom_natDecimal (n : Nat) :
    ∀ acc : Nat, parseDigitsFrom acc (natDecimal n) =
      acc * 10 ^ (natDecimal n).length + n := by
  induction n using Nat.strong_induction_on with
  | _ n ih =>
    intro acc
    rw [natDecimal]
    by_cases h : n < 10
    · rw [if_pos h]
      rw [parseDigitsFrom]
      simp only [List.foldl_cons, List.foldl_nil, List.length_singleton]
      rw [digitChar_val h, pow_one]
    · rw [if_neg h]
      rw [parseDigitsFrom, List.foldl_append]
      simp only [List.foldl_cons, List.foldl_nil]
      rw [← parseDigitsFrom, ih (n / 10) (Nat.div_lt_self (by omega) (by omega)) acc]
      rw [digitChar_val (Nat.mod_lt _ (by omega))]
      rw [List.length_append, List.length_singleton, pow_succ]
      have hm := Nat.div_add_mod n 10
      calc (acc * 10 ^ (natDecimal (n / 10)).length + n / 10) * 10 + n % 10
          = acc * (10 ^ (natDecimal (n / 10)).length * 10) +
              (10 * (n / 10) + n % 10) := by ring
        _ = acc * (10 ^ (natDecimal (n / 10)).length * 10) + n := by rw [hm]

theorem parseDigitsFrom_zero_natDecimal (n : Nat) :
    parseDigitsFrom 0 (natDecimal n) = n := by
  have h := parseDigitsFrom_natDecimal n 0
  simpa using h

theorem jsParseIntList_natDecimal (m : Nat) :
    jsParseIntList (natDecimal m) = some (Int.ofNat m) := by
  have hd := natDecimal_digits m
  obtain ⟨c, cs, hl⟩ := List.exists_cons_of_ne_nil (natDecimal_ne_nil m)
  have hc : c.isDigit = true := hd c (by rw [hl]; exact List.mem_cons_self c cs)
  have hdw : (natDecimal m).dropWhile Char.isWhitespace = natDecimal m := by
    conv_lhs => rw [hl]
    rw [List.dropWhile_cons]
    rw [digit_not_ws hc]
    simp [hl]
  have hps : parseSign (natDecimal m) = (false, natDecimal m) := by
    conv_lhs => rw [hl]
    rw [parseSign]
    rw [if_neg (digit_ne_dash hc), if_neg (digit_ne_plus hc)]
    rw [hl]
  have htw : (natDecimal m).takeWhile Char.isDigit = natDecimal m :=
    takeWhile_of_all hd
  have hne : (natDecimal m).isEmpty = false := by
    rw [hl]; rfl
  simp only [jsParseIntList, hdw, hps, htw, hne]
  simp [parseDigitsFrom_zero_natDecimal m]

theorem jsParseIntList_neg_natDecimal (m : Nat) :
    jsParseIntList ('-' :: natDecimal m) = some (-(Int.ofNat m)) := by
  have hd := natDecimal_digits m
  have hdw : ('-' :: natDecimal m).dropWhile Char.isWhitespace =
      '-' :: natDecimal m := by
    rw [List.dropWhile_cons]
    simp
  have hps : parseSign ('-' :: natDecimal m) = (true, natDecimal m) := by
    rw [parseSign]
    rw [if_pos rfl]
  have htw : (natDecimal m).takeWhile Char.isDigit = natDecimal m :=
    takeWhile_of_all hd
  have hne : (natDecimal m).isEmpty = false := by
    obtain ⟨c, cs, hl⟩ := List.exists_cons_of_ne_nil (natDecimal_ne_nil m)
    rw [hl]; rfl
  simp only [jsParseIntList, hdw, hps, htw, hne]
  simp [parseDigitsFrom_zero_natDecimal m]

theorem jsParseInt10_roundTrip (n : Int) :
    jsParseInt10 (intToDecimalString n) = some n := by
  rw [intToDecimalString]
  by_cases hn : n < 0
  · rw [if_pos hn]
    show jsParseIntList ('-' :: natDecimal n.natAbs) = some n
    rw [jsParseIntList_neg_natDecimal]
    have : -(Int.ofNat n.natAbs) = n := by
      rw [Int.ofNat_eq_natCast]; omega
    rw [this]
  · rw [if_neg hn]
    show jsParseIntList (natDecimal n.natAbs) = some n
    rw [jsParseIntList_natDecimal]
    have : Int.ofNat n.natAbs = n := by
      rw [Int.ofNat_eq_natCast]; omega
    rw [this]

theorem intToDecimalString_ne_empty (n : Int) : intToDecimalString n ≠ "" := by
  rw [intToDecimalString]
  by_cases hn : n < 0
  · rw [if_pos hn]
    intro h
    have hdata := congrArg String.data h
    simp at hdata
  · rw [if_neg hn]
    intro h
    have hdata : natDecimal n.natAbs = [] := congrArg String.data h
    exact natDecimal_ne_nil n.natAbs hdata

/-! ## Helper lemmas: the generator -/

theorem randBetween_bounds (r : RandSource) (lo hi : Nat) (h : lo ≤ hi) :
    lo ≤ (randBetween r lo hi).1 ∧ (randBetween r lo hi).1 ≤ hi := by
  have hpos : 0 < hi + 1 - lo := by omega
  have hm := Nat.mod_lt (randStep r).1 hpos
  constructor
  · show lo ≤ lo + (randStep r).1 % (hi + 1 - lo)
    omega
  · show lo + (randStep r).1 % (hi + 1 - lo) ≤ hi
    omega

/-! ## The claims -/

/-- C1: for every Problem `P`, evaluating the decimal rendering of the
correct answer succeeds and reports a correct result with the parsed
value equal to the answer: `parseInt` round-trips the rendered integer
and the comparison against `P.answer` holds. -/
theorem evaluate_correct_answer_roundtrip (P : Problem) :
    evaluate (intToDecimalString P.answer) P = .ok true P.answer := by
  rw [evaluate, if_neg (intToDecimalString_ne_empty P.answer)]
  rw [jsParseInt10_roundTrip]
  simp

/-- C2: for every Problem and every non-empty raw input whose
`parseInt` is `NaN`, the evaluation fails with `NotANumber`. -/
theorem evaluate_unparseable_notANumber (P : Problem) (s : String)
    (h1 : s ≠ "") (h2 : jsParseInt10 s = none) :
    evaluate s P = .notANumber := by
  rw [evaluate, if_neg h1, h2]

/-- Witness for C2 at the concrete unparseable input `"abc"`. -/
theorem evaluate_unparseable_notANumber_witness :
    ("abc" : String) ≠ "" ∧ jsParseInt10 "abc" = none ∧
      evaluate "abc" sampleProblem = .notANumber :=
  ⟨by decide, by decide,
    evaluate_unparseable_notANumber sampleProblem "abc" (by decide) (by decide)⟩

/-- C3: for every Problem, evaluating the empty input fails with
`MissingAnswer`; the empty-input branch takes precedence over parsing
(the empty string would itself parse to `NaN`, yet the reported error
is `MissingAnswer`, not `NotANumber`). -/
theorem evaluate_empty_missingAnswer (P : Problem) :
    evaluate "" P = .missingAnswer ∧ jsParseInt10 "" = none :=
  ⟨by rw [evaluate, if_pos rfl], by decide⟩

/-- C5: for every Problem `P`, evaluating the decimal rendering of
`P.answer + 1` parses successfully and reports an incorrect result. -/
theorem evaluate_off_by_one_incorrect (P : Problem) :
    evaluate (intToDecimalString (P.answer + 1)) P = .ok false (P.answer + 1) := by
  rw [evaluate, if_neg (intToDecimalString_ne_empty (P.answer + 1))]
  rw [jsParseInt10_roundTrip]
  have : (P.answer + 1 == P.answer) = false := by
    rw [beq_eq_false_iff_ne]
    omega
  show EvalResult.ok (P.answer + 1 == P.answer) (P.answer + 1) =
    EvalResult.ok false (P.answer + 1)
  rw [this]

/-- C4: answer checking is atomic on error — whenever `checkAnswer`
takes the MissingAnswer branch or the NotANumber branch it returns the
session state unchanged: `currentProblem`, `userAnswer`, `isCorrect`,
`showFeedback` and `showHints` are all preserved. -/
theorem checkAnswer_error_atomic (s : SessionState)
    (h : (checkAnswer s).2 = .missingAnswer ∨ (checkAnswer s).2 = .notANumber) :
    (checkAnswer s).1 = s := by
  by_cases he : s.userAnswer = ""
  · simp [checkAnswer, he]
  · rcases hp : jsParseInt10 s.userAnswer with _ | v
    · simp [checkAnswer, he, hp]
    · simp [checkAnswer, he, hp] at h

/-- Witness for C4 at a concrete state with an empty input box. -/
theorem checkAnswer_error_atomic_witness :
    ((checkAnswer emptyInputState).2 = .missingAnswer ∨
      (checkAnswer emptyInputState).2 = .notANumber) ∧
    (checkAnswer emptyInputState).1 = emptyInputState :=
  ⟨Or.inl (by decide),
    checkAnswer_error_atomic emptyInputState (Or.inl (by decide))⟩

/-- C6: after an answered check, the input-and-Check lock
(`showFeedback && isCorrect`) equals the correctness flag — locked
exactly in the Correct state, so Incorrect permits another check —
`checkAnswer` leaves `currentProblem` unchanged (retry is on the same
problem), and invoking next unlocks the input again. -/
theorem checkAnswer_correct_locks_input (s : SessionState) (c : Bool)
    (h : (checkAnswer s).2 = .answered c) :
    inputDisabled (checkAnswer s).1 = c ∧
    (checkAnswer s).1.currentProblem = s.currentProblem ∧
    ∀ r : RandSource, inputDisabled (nextProblem r (checkAnswer s).1).1 = false := by
  refine ⟨?_, ?_, ?_⟩
  · by_cases he : s.userAnswer = ""
    · simp [checkAnswer, he] at h
    · rcases hp : jsParseInt10 s.userAnswer with _ | v
      · simp [checkAnswer, he, hp] at h
      · simp [checkAnswer, he, hp] at h
        simp [checkAnswer, he, hp, inputDisabled, h]
  · by_cases he : s.userAnswer = ""
    · simp [checkAnswer, he]
    · rcases hp : jsParseInt10 s.userAnswer with _ | v
      · simp [checkAnswer, he, hp]
      · simp [checkAnswer, he, hp]
  · intro r
    simp [nextProblem, inputDisabled]

/-- Witness for C6 at a concrete state holding a correct typed answer. -/
theorem checkAnswer_correct_locks_input_witness :
    (checkAnswer correctInputState).2 = .answered true ∧
    inputDisabled (checkAnswer correctInputState).1 = true ∧
    (checkAnswer correctInputState).1.currentProblem = sampleProblem ∧
    inputDisabled (nextProblem ⟨0⟩ (checkAnswer correctInputState).1).1 = false := by
  have h := checkAnswer_correct_locks_input correctInputState true (by decide)
  exact ⟨by decide, h.1, h.2.1, h.2.2 ⟨0⟩⟩

/-- C7: from any state, `nextProblem` returns the session to Idle with
a new problem: the current problem becomes the freshly generated
level-1 problem, the input clears, feedback hides, hints collapse. -/
theorem nextProblem_resets_to_idle (r : RandSource) (s : SessionState) :
    (nextProblem r s).1.currentProblem = (generateAlgebraProblem 1 r).1 ∧
    (nextProblem r s).1.userAnswer = "" ∧
    (nextProblem r s).1.showFeedback = false ∧
    (nextProblem r s).1.showHints = false := by
  refine ⟨?_, ?_, ?_, ?_⟩ <;> simp [nextProblem]

/-- C8: for all levels L ≥ 1, the generated problem is internally
consistent — its answer solves its equation and is the unique integer
doing so, the answer is non-negative, and the problem has exactly two
operands each in [1, 10] with operator addition or subtraction. -/
theorem generate_problem_consistent (L : Nat) (r : RandSource) (hL : 1 ≤ L) :
    equationHolds (generateAlgebraProblem L r).1 (generateAlgebraProblem L r).1.answer ∧
    (∀ x : Int, equationHolds (generateAlgebraProblem L r).1 x →
      x = (generateAlgebraProblem L r).1.answer) ∧
    0 ≤ (generateAlgebraProblem L r).1.answer ∧
    (generateAlgebraProblem L r).1.operands.length = 2 ∧
    (∀ o ∈ (generateAlgebraProblem L r).1.operands, 1 ≤ o ∧ o ≤ 10) ∧
    ((generateAlgebraProblem L r).1.operator = .addition ∨
      (generateAlgebraProblem L r).1.operator = .subtraction) := by
  obtain ⟨ha1, ha2⟩ := randBetween_bounds r 1 10 (by omega)
  obtain ⟨hb1, hb2⟩ := randBetween_bounds (randBetween r 1 10).2 1 10 (by omega)
  by_cases hop :
      (randBetween (randBetween (randBetween r 1 10).2 1 10).2 0 1).1 = 0
  · have hP : (generateAlgebraProblem L r).1 =
        { operands := [Int.ofNat (randBetween r 1 10).1,
            Int.ofNat (randBetween (randBetween r 1 10).2 1 10).1]
          operator := .addition
          answer := Int.ofNat (randBetween r 1 10).1 +
            Int.ofNat (randBetween (randBetween r 1 10).2 1 10).1
          hint := "Count up from the first number."
          detailedHint := "Draw dots for each number and count them all." } := by
      simp only [generateAlgebraProblem]
      rw [if_pos hop]
    rw [hP]
    simp only [Int.ofNat_eq_natCast]
    refine ⟨?_, ?_, ?_, ?_, ?_, ?_⟩
    · simp [equationHolds, applyOp]
    · intro x hx
      simp [equationHolds, applyOp] at hx
      omega
    · show (0 : Int) ≤ _
      omega
    · rfl
    · intro o ho
      simp only [List.mem_cons, List.not_mem_nil, or_false] at ho
      rcases ho with h1 | h1 <;> (subst h1; constructor <;> omega)
    · left; trivial
  · have hP : (generateAlgebraProblem L r).1 =
        { operands := [Int.ofNat (max (randBetween r 1 10).1
              (randBetween (randBetween r 1 10).2 1 10).1),
            Int.ofNat (min (randBetween r 1 10).1
              (randBetween (randBetween r 1 10).2 1 10).1)]
          operator := .subtraction
          answer := Int.ofNat (max (randBetween r 1 10).1
              (randBetween (randBetween r 1 10).2 1 10).1) -
            Int.ofNat (min (randBetween r 1 10).1
              (randBetween (randBetween r 1 10).2 1 10).1)
          hint := "Count down from the bigger number."
          detailedHint := "Start at the bigger number and count back." } := by
      simp only [generateAlgebraProblem]
      rw [if_neg hop]
    rw [hP]
    simp only [Int.ofNat_eq_natCast]
    refine ⟨?_, ?_, ?_, ?_, ?_, ?_⟩
    · simp [equationHolds, applyOp]
    · intro x hx
      simp [equationHolds, applyOp] at hx
      omega
    · show (0 : Int) ≤ _
      omega
    · rfl
    · intro o ho
      simp only [List.mem_cons, List.not_mem_nil, or_false] at ho
      rcases ho with h1 | h1 <;> (subst h1; constructor <;> omega)
    · right; trivial

/-- Witness for C8 at level 1 with a concrete seed. -/
theorem generate_problem_consistent_witness :
    1 ≤ 1 ∧
    equationHolds (generateAlgebraProblem 1 ⟨0⟩).1
      (generateAlgebraProblem 1 ⟨0⟩).1.answer ∧
    0 ≤ (generateAlgebraProblem 1 ⟨0⟩).1.answer ∧
    (generateAlgebraProblem 1 ⟨0⟩).1.operands.length = 2 := by
  have h := generate_problem_consistent 1 ⟨0⟩ (by decide)
  exact ⟨by decide, h.1, h.2.2.1, h.2.2.2.1⟩

/-- C9: with the random source an explicit argument, the generator is
a deterministic function of its arguments — a fixed seed and level
determine the generated problem. -/
theorem generate_deterministic (L : Nat) (a b : RandSource)
    (h : a.seed = b.seed) :
    generateAlgebraProblem L a = generateAlgebraProblem L b := by
  have hab : a = b := by
    cases a; cases b; simpa using h
  rw [hab]

/-- Witness for C9 at level 1 with seed 42 twice. -/
theorem generate_deterministic_witness :
    (⟨42⟩ : RandSource).seed = (⟨42⟩ : RandSource).seed ∧
    generateAlgebraProblem 1 ⟨42⟩ = generateAlgebraProblem 1 ⟨42⟩ :=
  ⟨rfl, generate_deterministic 1 ⟨42⟩ ⟨42⟩ rfl⟩

/-- C10: the input lock is exactly `showFeedback && isCorrect`;
`nextProblem` does not reset `isCorrect`, so after advancing from a
correctly answered problem `isCorrect` stays true and the input is
re-enabled solely because `showFeedback` has become false. -/
theorem nextProblem_keeps_isCorrect (r : RandSource) (s : SessionState) :
    inputDisabled s = (s.showFeedback && s.isCorrect) ∧
    (nextProblem r s).1.isCorrect = s.isCorrect ∧
    (s.showFeedback = true → s.isCorrect = true →
      inputDisabled s = true ∧
      (nextProblem r s).1.isCorrect = true ∧
      (nextProblem r s).1.showFeedback = false ∧
      inputDisabled (nextProblem r s).1 = false) := by
  refine ⟨rfl, by simp [nextProblem], ?_⟩
  intro h1 h2
  refine ⟨by simp [inputDisabled, h1, h2], by simp [nextProblem, h2],
    by simp [nextProblem], by simp [nextProblem, inputDisabled]⟩

/-- Witness for C10 at a concrete correctly answered state. -/
theorem nextProblem_keeps_isCorrect_witness :
    answeredState.showFeedback = true ∧ answeredState.isCorrect = true ∧
    inputDisabled answeredState = true ∧
    (nextProblem ⟨0⟩ answeredState).1.isCorrect = true ∧
    inputDisabled (nextProblem ⟨0⟩ answeredState).1 = false := by
  have h := nextProblem_keeps_isCorrect ⟨0⟩ answeredState
  have h3 := h.2.2 rfl rfl
  exact ⟨rfl, rfl, h3.1, h3.2.1, h3.2.2.2⟩
